import Mathlib

/-!
# Library lending engine: a shallow embedding of `src/server.js`

The server keeps three in-memory JavaScript `Map`s (`members`, `books`,
`borrowings`).  A JS `Map` iterates its entries in insertion order, so each
store is embedded as an insertion-ordered association list `List (Nat × α)`
whose keys are the caller-supplied integer ids (transaction ids for the
ledger).  Timestamps are milliseconds since the epoch (`Nat`); the JS code
stores them as ISO-8601 strings, which round-trips the millisecond value
exactly, and `dueDate.setDate(now.getDate() + 14)` advances the date by
exactly fourteen 24-hour days in this uniform-day time model.

JavaScript aliasing matters for member histories: `member.history.push(borrowing)`
pushes a *reference* to the very object stored in the `borrowings` map, so a
later in-place mutation of the ledger record is visible through the history.
The embedding makes the ledger the heap: a history is a list of transaction
ids, and reading a history entry dereferences the ledger.
-/

/-- Milliseconds in one day (`1000 * 60 * 60 * 24` in `GET /api/overdue`). -/
def msPerDay : Nat := 1000 * 60 * 60 * 24

/-- Status of a borrowing record: the string field `status` takes only the
values `"active"` and `"returned"` in `server.js`. -/
inductive BStatus where
  | active
  | returned
deriving DecidableEq, Repr

/-- A ledger record, as built at `server.js:92-101`.  `returned_at` is absent
(`none`) until `POST /api/return` sets it. -/
structure Borrowing where
  transaction_id : Nat
  member_id : Nat
  member_name : String
  book_id : Nat
  book_title : String
  borrowed_at : Nat
  due_date : Nat
  status : BStatus
  returned_at : Option Nat
deriving DecidableEq, Repr

/-- A member record (`server.js:28-29`).  `history` holds references into the
ledger (transaction ids): JS pushes the borrowing object itself. -/
structure Member where
  member_id : Nat
  name : String
  age : Int
  has_borrowed : Bool
  history : List Nat
deriving DecidableEq, Repr

/-- A book record (`server.js:206`). -/
structure Book where
  book_id : Nat
  title : String
  author : String
  isbn : String
  is_available : Bool
deriving DecidableEq, Repr

/-- The three global stores of `server.js:9-11` (the `reservations` map is
declared but never used).  Each is an insertion-ordered association list
mirroring a JS `Map`. -/
structure LibState where
  members : List (Nat × Member)
  books : List (Nat × Book)
  borrowings : List (Nat × Borrowing)
deriving DecidableEq, Repr

/-- `Map.get` / `Map.has`: first (and, with unique keys, only) entry with the
given key. -/
def lookupE {α : Type} (k : Nat) : List (Nat × α) → Option α
  | [] => none
  | (k', v) :: rest => if k = k' then some v else lookupE k rest

/-- `Map.set` on an existing key: replace the value in place, keeping the
entry's position. -/
def setEntry {α : Type} (k : Nat) (v : α) (l : List (Nat × α)) : List (Nat × α) :=
  l.map (fun p => if p.1 = k then (k, v) else p)

/-- `Map.delete`: drop the entry with the given key, keeping the order of the
rest. -/
def delEntry {α : Type} (k : Nat) (l : List (Nat × α)) : List (Nat × α) :=
  l.filter (fun p => decide (p.1 ≠ k))

/-- The typed failures surfaced by the engine (HTTP 404/400 bodies in
`server.js`). -/
inductive LErr where
  | badRequest
  | memberNotFound (id : Nat)
  | bookNotFound (id : Nat)
  | alreadyBorrowed (id : Nat)
  | bookUnavailable (id : Nat)
  | noActiveBorrowing (member_id book_id : Nat)
  | memberExists (id : Nat)
  | invalidAge (age : Int)
  | memberHasBorrowing (id : Nat)
  | bookExists (id : Nat)
  | bookCurrentlyBorrowed (id : Nat)
deriving DecidableEq, Repr

/-- `POST /api/members` (`server.js:17-31`).  JS rejects falsy `member_id`
(so id 0) and falsy `name` (so the empty string) via
`!member_id || !name || age === undefined`; the `age` field is always present
in the typed embedding.  The stored record carries an empty history. -/
def createMember (s : LibState) (member_id : Nat) (name : String) (age : Int) :
    Except LErr Member × LibState :=
  if member_id = 0 ∨ name = "" then (.error .badRequest, s)
  else if (lookupE member_id s.members).isSome then (.error (.memberExists member_id), s)
  else if age < 12 then (.error (.invalidAge age), s)
  else
    let m : Member := { member_id, name, age, has_borrowed := false, history := [] }
    (.ok m, { s with members := s.members ++ [(member_id, m)] })

/-- `DELETE /api/members/:member_id` (`server.js:170-177`): refuse while the
member has an active borrowing (`has_borrowed`). -/
def deleteMember (s : LibState) (id : Nat) : Except LErr Unit × LibState :=
  match lookupE id s.members with
  | none => (.error (.memberNotFound id), s)
  | some m =>
    if m.has_borrowed then (.error (.memberHasBorrowing id), s)
    else (.ok (), { s with members := delEntry id s.members })

/-- `POST /api/books` (`server.js:202-209`).  JS rejects falsy `book_id`,
`title`, `author`, `isbn`.  New books start available. -/
def addBook (s : LibState) (book_id : Nat) (title author isbn : String) :
    Except LErr Book × LibState :=
  if book_id = 0 ∨ title = "" ∨ author = "" ∨ isbn = "" then (.error .badRequest, s)
  else if (lookupE book_id s.books).isSome then (.error (.bookExists book_id), s)
  else
    let bk : Book := { book_id, title, author, isbn, is_available := true }
    (.ok bk, { s with books := s.books ++ [(book_id, bk)] })

/-- `DELETE /api/books/:book_id` (`server.js:223-230`): refuse while some
ledger record with this `book_id` is still `active`. -/
def deleteBook (s : LibState) (id : Nat) : Except LErr Unit × LibState :=
  match lookupE id s.books with
  | none => (.error (.bookNotFound id), s)
  | some _ =>
    if s.borrowings.any (fun p => decide (p.2.book_id = id ∧ p.2.status = BStatus.active)) then
      (.error (.bookCurrentlyBorrowed id), s)
    else (.ok (), { s with books := delEntry id s.books })

/-- `POST /api/borrow` (`server.js:77-109`).  Checks, in source order: member
exists, book exists, member not already borrowing, book available.  On
success: `transaction_id = borrowings.size + 1`, `borrowed_at = now`,
`due_date = now + 14 days`, snapshot of name/title, status `active`; insert
into the ledger, push (a reference to) the record onto the member's history,
flip the two flags, return the record. -/
def borrow (s : LibState) (now member_id book_id : Nat) :
    Except LErr Borrowing × LibState :=
  match lookupE member_id s.members with
  | none => (.error (.memberNotFound member_id), s)
  | some member =>
    match lookupE book_id s.books with
    | none => (.error (.bookNotFound book_id), s)
    | some book =>
      if member.has_borrowed then (.error (.alreadyBorrowed member_id), s)
      else if !book.is_available then (.error (.bookUnavailable book_id), s)
      else
        let transaction_id := s.borrowings.length + 1
        let b : Borrowing :=
          { transaction_id, member_id, member_name := member.name, book_id,
            book_title := book.title, borrowed_at := now,
            due_date := now + 14 * msPerDay, status := .active, returned_at := none }
        (.ok b,
          { s with
            borrowings := s.borrowings ++ [(transaction_id, b)],
            members := setEntry member_id
              { member with has_borrowed := true, history := member.history ++ [transaction_id] }
              s.members,
            books := setEntry book_id { book with is_available := false } s.books })

/-- `POST /api/return` (`server.js:114-129`).  Checks: member exists, then
`find` over the ledger for the first record matching `member_id`, `book_id`
and `status === "active"`.  On success the found record is mutated in place
(status `returned`, `returned_at = now`), the member's flag is cleared and
the book is made available again.  `books.get(book_id)` is *not* validated:
if the book were missing, `book.is_available = true` would throw a
`TypeError`; that crash is the `none` result. -/
def returnBook (s : LibState) (now member_id book_id : Nat) :
    Option (Except LErr Borrowing × LibState) :=
  match lookupE member_id s.members with
  | none => some (.error (.memberNotFound member_id), s)
  | some member =>
    match s.borrowings.find?
        (fun p => decide (p.2.member_id = member_id ∧ p.2.book_id = book_id ∧
                          p.2.status = BStatus.active)) with
    | none => some (.error (.noActiveBorrowing member_id book_id), s)
    | some (tid, b) =>
      match lookupE book_id s.books with
      | none => none
      | some book =>
        let b' : Borrowing := { b with status := .returned, returned_at := some now }
        some (.ok b',
          { s with
            borrowings := setEntry tid b' s.borrowings,
            members := setEntry member_id { member with has_borrowed := false } s.members,
            books := setEntry book_id { book with is_available := true } s.books })

/-- One element of the `GET /api/overdue` response (`server.js:186-195`). -/
structure OverdueView where
  transaction_id : Nat
  member_id : Nat
  member_name : String
  book_id : Nat
  book_title : String
  borrowed_at : Nat
  due_date : Nat
  days_overdue : Nat
deriving DecidableEq, Repr

/-- The per-record projection of `GET /api/overdue`:
`days_overdue = Math.floor((now - due_date) / (1000*60*60*24))`. -/
def mkOverdueView (now : Nat) (b : Borrowing) : OverdueView :=
  { transaction_id := b.transaction_id, member_id := b.member_id,
    member_name := b.member_name, book_id := b.book_id,
    book_title := b.book_title, borrowed_at := b.borrowed_at,
    due_date := b.due_date, days_overdue := (now - b.due_date) / msPerDay }

/-- `GET /api/overdue` (`server.js:182-197`): active records whose `due_date`
is strictly before `now`. -/
def overdue (s : LibState) (now : Nat) : List OverdueView :=
  (s.borrowings.filter
      (fun p => decide (p.2.status = BStatus.active ∧ p.2.due_date < now))).map
    (fun p => mkOverdueView now p.2)

/-- One element of the `GET /api/members/:id/history` response
(`server.js:156-163`); `returned_at` is `b.returned_at || null`. -/
structure HistoryView where
  transaction_id : Nat
  book_id : Nat
  book_title : String
  borrowed_at : Nat
  returned_at : Option Nat
  status : BStatus
deriving DecidableEq, Repr

/-- Projection of one referenced ledger record into the history response. -/
def mkHistView (b : Borrowing) : HistoryView :=
  { transaction_id := b.transaction_id, book_id := b.book_id,
    book_title := b.book_title, borrowed_at := b.borrowed_at,
    returned_at := b.returned_at, status := b.status }

/-- `GET /api/members/:member_id/history` (`server.js:152-165`): `none` if
the member is unknown, otherwise the member's history entries, each
dereferenced through the ledger (the history stores references to the very
objects the ledger owns). -/
def historyOf (s : LibState) (mid : Nat) : Option (List HistoryView) :=
  (lookupE mid s.members).map
    (fun m => m.history.filterMap (fun tid => (lookupE tid s.borrowings).map mkHistView))

/-- The engine operations the claims quantify over: borrow, return, and
member/book create and delete. -/
inductive Op where
  | createMemberOp (member_id : Nat) (name : String) (age : Int)
  | deleteMemberOp (member_id : Nat)
  | addBookOp (book_id : Nat) (title author isbn : String)
  | deleteBookOp (book_id : Nat)
  | borrowOp (now member_id book_id : Nat)
  | returnOp (now member_id book_id : Nat)
deriving DecidableEq, Repr

/-- State transition of one operation; `none` is the uncaught `TypeError` in
`POST /api/return` (no further state). -/
def applyOp (op : Op) (s : LibState) : Option LibState :=
  match op with
  | .createMemberOp id n a => some (createMember s id n a).2
  | .deleteMemberOp id => some (deleteMember s id).2
  | .addBookOp id t au i => some (addBook s id t au i).2
  | .deleteBookOp id => some (deleteBook s id).2
  | .borrowOp now m b => some (borrow s now m b).2
  | .returnOp now m b => (returnBook s now m b).map Prod.snd

/-- The empty start state (`server.js:9-11`: fresh maps). -/
def initState : LibState := { members := [], books := [], borrowings := [] }

/-- States reachable from the empty state by any sequence of engine
operations. -/
inductive Reachable : LibState → Prop where
  | init : Reachable initState
  | step {s s' : LibState} (op : Op) : Reachable s → applyOp op s = some s' → Reachable s'

/-- Number of `active` ledger records carrying this `member_id`. -/
def activeCountM (s : LibState) (mid : Nat) : Nat :=
  s.borrowings.countP (fun p => decide (p.2.member_id = mid ∧ p.2.status = BStatus.active))

/-- Number of `active` ledger records carrying this `book_id`. -/
def activeCountB (s : LibState) (bid : Nat) : Nat :=
  s.borrowings.countP (fun p => decide (p.2.book_id = bid ∧ p.2.status = BStatus.active))

theorem createMember_sanity : (createMember initState 1 "alice" 30).2.members =
    [(1, { member_id := 1, name := "alice", age := 30, has_borrowed := false, history := [] })] := by
  decide

theorem borrow_sanity :
    (borrow (addBook (createMember initState 1 "alice" 30).2 101 "dune" "fh" "i1").2
      1000 1 101).2.borrowings =
    [(1, { transaction_id := 1, member_id := 1, member_name := "alice", book_id := 101,
           book_title := "dune", borrowed_at := 1000, due_date := 1000 + 14 * msPerDay,
           status := .active, returned_at := none })] := by
  decide

/-! ## Association-list lemmas -/

theorem lookupE_nil {α : Type} (k : Nat) : lookupE k ([] : List (Nat × α)) = none := rfl

theorem lookupE_cons {α : Type} (k k₁ : Nat) (v₁ : α) (rest : List (Nat × α)) :
    lookupE k ((k₁, v₁) :: rest) = if k = k₁ then some v₁ else lookupE k rest := rfl

theorem setEntry_nil {α : Type} (k : Nat) (v : α) : setEntry k v ([] : List (Nat × α)) = [] := rfl

theorem setEntry_cons {α : Type} (k k₁ : Nat) (v v₁ : α) (rest : List (Nat × α)) :
    setEntry k v ((k₁, v₁) :: rest) =
      (if k₁ = k then (k, v) else (k₁, v₁)) :: setEntry k v rest := rfl

theorem delEntry_cons {α : Type} (k k₁ : Nat) (v₁ : α) (rest : List (Nat × α)) :
    delEntry k ((k₁, v₁) :: rest) =
      if k₁ = k then delEntry k rest else (k₁, v₁) :: delEntry k rest := by
  by_cases h : k₁ = k <;> simp [delEntry, List.filter_cons, h]

theorem lookupE_append_some {α : Type} {k : Nat} {v : α} {l₁ l₂ : List (Nat × α)}
    (h : lookupE k l₁ = some v) : lookupE k (l₁ ++ l₂) = some v := by
  induction l₁ with
  | nil => rw [lookupE_nil] at h; exact absurd h (by simp)
  | cons p rest ih =>
    obtain ⟨k₁, v₁⟩ := p
    rw [lookupE_cons] at h
    rw [List.cons_append, lookupE_cons]
    by_cases hk : k = k₁
    · rw [if_pos hk] at h; rw [if_pos hk]; exact h
    · rw [if_neg hk] at h; rw [if_neg hk]; exact ih h

theorem lookupE_append_none {α : Type} {k : Nat} {l₁ : List (Nat × α)} (l₂ : List (Nat × α))
    (h : lookupE k l₁ = none) : lookupE k (l₁ ++ l₂) = lookupE k l₂ := by
  induction l₁ with
  | nil => simp
  | cons p rest ih =>
    obtain ⟨k₁, v₁⟩ := p
    rw [lookupE_cons] at h
    rw [List.cons_append, lookupE_cons]
    by_cases hk : k = k₁
    · rw [if_pos hk] at h; exact absurd h (by simp)
    · rw [if_neg hk] at h ⊢; exact ih h

theorem lookupE_setEntry {α : Type} (k k' : Nat) (v' : α) (l : List (Nat × α)) :
    lookupE k' (setEntry k v' l) =
      if k' = k then (lookupE k l).map (fun _ => v') else lookupE k' l := by
  induction l with
  | nil => rw [setEntry_nil, lookupE_nil, lookupE_nil]; simp
  | cons p rest ih =>
    obtain ⟨k₁, v₁⟩ := p
    rw [setEntry_cons]
    by_cases h1 : k₁ = k
    · subst h1
      by_cases h2 : k' = k₁
      · subst h2
        simp [lookupE_cons]
      · simp [lookupE_cons, h2, ih]
    · by_cases h2 : k' = k₁
      · subst h2
        simp [lookupE_cons, h1, ih]
      · have h1' : ¬k = k₁ := fun hc => h1 hc.symm
        simp [lookupE_cons, h1, h1', h2, ih]

theorem lookupE_delEntry {α : Type} (k k' : Nat) (l : List (Nat × α)) :
    lookupE k' (delEntry k l) = if k' = k then none else lookupE k' l := by
  induction l with
  | nil => simp [delEntry, lookupE_nil]
  | cons p rest ih =>
    obtain ⟨k₁, v₁⟩ := p
    rw [delEntry_cons]
    by_cases h1 : k₁ = k
    · subst h1
      by_cases h2 : k' = k₁
      · subst h2
        simp [ih]
      · simp [ih, h2, lookupE_cons]
    · by_cases h2 : k' = k₁
      · subst h2
        have hne : ¬k' = k := fun hc => h1 (hc ▸ rfl)
        simp [h1, hne, lookupE_cons]
      · simp [h1, h2, lookupE_cons, ih]

theorem lookupE_eq_none_iff {α : Type} (k : Nat) (l : List (Nat × α)) :
    lookupE k l = none ↔ k ∉ l.map Prod.fst := by
  induction l with
  | nil => simp [lookupE_nil]
  | cons p rest ih =>
    obtain ⟨k₁, v₁⟩ := p
    rw [lookupE_cons]
    by_cases h : k = k₁ <;> simp [h, ih]

theorem lookupE_mem {α : Type} {k : Nat} {v : α} {l : List (Nat × α)}
    (h : lookupE k l = some v) : (k, v) ∈ l := by
  induction l with
  | nil => rw [lookupE_nil] at h; exact absurd h (by simp)
  | cons p rest ih =>
    obtain ⟨k₁, v₁⟩ := p
    rw [lookupE_cons] at h
    by_cases hk : k = k₁
    · rw [if_pos hk] at h
      obtain rfl : v₁ = v := Option.some.inj h
      subst hk
      exact List.mem_cons_self _ _
    · rw [if_neg hk] at h
      exact List.mem_cons_of_mem _ (ih h)

theorem map_fst_setEntry {α : Type} (k : Nat) (v : α) (l : List (Nat × α)) :
    (setEntry k v l).map Prod.fst = l.map Prod.fst := by
  induction l with
  | nil => rfl
  | cons p rest ih =>
    obtain ⟨k₁, v₁⟩ := p
    rw [setEntry_cons]
    by_cases h : k₁ = k
    · subst h
      rw [if_pos rfl, List.map_cons, List.map_cons, ih]
    · rw [if_neg h, List.map_cons, List.map_cons, ih]

theorem mem_setEntry {α : Type} {k : Nat} {v : α} {l : List (Nat × α)} {p : Nat × α}
    (h : p ∈ setEntry k v l) : p = (k, v) ∨ p ∈ l := by
  obtain ⟨q, hq, hfq⟩ := List.mem_map.mp h
  by_cases hk : q.1 = k
  · rw [if_pos hk] at hfq
    exact Or.inl hfq.symm
  · rw [if_neg hk] at hfq
    exact Or.inr (hfq ▸ hq)

theorem setEntry_of_not_mem {α : Type} {k : Nat} (v : α) {l : List (Nat × α)}
    (h : k ∉ l.map Prod.fst) : setEntry k v l = l := by
  induction l with
  | nil => rfl
  | cons p rest ih =>
    obtain ⟨k₁, v₁⟩ := p
    rw [List.map_cons] at h
    rw [setEntry_cons, if_neg (fun hc => h (by simp [hc])), ih (fun hc => h (by simp [hc]))]

theorem nodup_delEntry {α : Type} (k : Nat) {l : List (Nat × α)}
    (h : (l.map Prod.fst).Nodup) : ((delEntry k l).map Prod.fst).Nodup := by
  have hsub : List.Sublist ((delEntry k l).map Prod.fst) (l.map Prod.fst) :=
    (List.filter_sublist l).map Prod.fst
  exact h.sublist hsub

theorem countP_setEntry {α : Type} (q : Nat × α → Bool) {l : List (Nat × α)}
    {k : Nat} {v : α} (v' : α) (hmem : (k, v) ∈ l) (hnd : (l.map Prod.fst).Nodup) :
    (setEntry k v' l).countP q + (if q (k, v) then 1 else 0) =
      l.countP q + (if q (k, v') then 1 else 0) := by
  induction l with
  | nil => exact absurd hmem (by simp)
  | cons p rest ih =>
    obtain ⟨k₁, v₁⟩ := p
    rw [List.map_cons, List.nodup_cons] at hnd
    rw [setEntry_cons]
    by_cases h1 : k₁ = k
    · subst h1
      obtain rfl : v = v₁ := by
        rcases List.mem_cons.mp hmem with heq | htail
        · exact (Prod.ext_iff.mp heq).2
        · exact absurd (List.mem_map_of_mem Prod.fst htail) hnd.1
      rw [if_pos rfl, setEntry_of_not_mem v' hnd.1, List.countP_cons, List.countP_cons]
      omega
    · rw [if_neg h1]
      have hmem' : (k, v) ∈ rest := by
        rcases List.mem_cons.mp hmem with heq | htail
        · exact absurd (Prod.ext_iff.mp heq).1.symm h1
        · exact htail
      have := ih hmem' hnd.2
      rw [List.countP_cons, List.countP_cons]
      omega

theorem find?_append_none {α : Type} {p : α → Bool} {l₁ : List α} (l₂ : List α)
    (h : l₁.find? p = none) : (l₁ ++ l₂).find? p = l₂.find? p := by
  rw [List.find?_append, h, Option.none_or]

theorem nodup_concat_of_not_mem {β : Type} {l : List β} {x : β} (h : l.Nodup) (hx : x ∉ l) :
    (l ++ [x]).Nodup := by
  refine h.append (List.nodup_singleton x) ?_
  intro a ha hax
  rw [List.mem_singleton] at hax
  exact hx (hax ▸ ha)

/-! ## The reachable-state invariant

Everything the claims need about reachable states: unique member/book keys,
ledger keys exactly `1..n` in order, transaction ids matching their keys,
the 14-day due date, and the flag/ledger correspondence for members
(`has_borrowed` iff exactly one active borrowing) and books (`is_available`
iff no active borrowing), including that ids absent from a store have no
active borrowings. -/
structure LibInv (s : LibState) : Prop where
  membersNodup : (s.members.map Prod.fst).Nodup
  booksNodup : (s.books.map Prod.fst).Nodup
  ledgerKeys : s.borrowings.map Prod.fst = List.range' 1 s.borrowings.length
  keyIsTid : ∀ p ∈ s.borrowings, p.2.transaction_id = p.1
  dueDates : ∀ p ∈ s.borrowings, p.2.due_date = p.2.borrowed_at + 14 * msPerDay
  memFlag : ∀ mid m, lookupE mid s.members = some m →
      activeCountM s mid = (if m.has_borrowed then 1 else 0)
  memNone : ∀ mid, lookupE mid s.members = none → activeCountM s mid = 0
  bookFlag : ∀ bid bk, lookupE bid s.books = some bk →
      activeCountB s bid = (if bk.is_available then 0 else 1)
  bookNone : ∀ bid, lookupE bid s.books = none → activeCountB s bid = 0

theorem inv_init : LibInv initState := by
  refine ⟨?_, ?_, ?_, ?_, ?_, ?_, ?_, ?_, ?_⟩ <;>
    simp [initState, activeCountM, activeCountB, lookupE_nil, List.range']

theorem inv_createMember (s : LibState) (id : Nat) (n : String) (a : Int) (h : LibInv s) :
    LibInv (createMember s id n a).2 := by
  unfold createMember
  by_cases hc1 : id = 0 ∨ n = ""
  · simp only [if_pos hc1]; exact h
  · simp only [if_neg hc1]
    by_cases hc2 : (lookupE id s.members).isSome = true
    · simp only [if_pos hc2]; exact h
    · simp only [if_neg hc2]
      by_cases hc3 : a < 12
      · simp only [if_pos hc3]; exact h
      · simp only [if_neg hc3]
        have hnone : lookupE id s.members = none := by
          cases hx : lookupE id s.members with
          | none => rfl
          | some m => rw [hx] at hc2; simp at hc2
        show LibInv { s with members := s.members ++
          [(id, { member_id := id, name := n, age := a, has_borrowed := false, history := [] })] }
        refine ⟨?_, h.booksNodup, h.ledgerKeys, h.keyIsTid, h.dueDates, ?_, ?_,
          h.bookFlag, h.bookNone⟩
        · rw [List.map_append]
          exact nodup_concat_of_not_mem h.membersNodup
            (by simpa using (lookupE_eq_none_iff id s.members).mp hnone)
        · intro mid m' hm
          cases hx : lookupE mid s.members with
          | some m₁ =>
            rw [lookupE_append_some hx] at hm
            obtain rfl := Option.some.inj hm
            exact h.memFlag mid m₁ hx
          | none =>
            rw [lookupE_append_none _ hx, lookupE_cons] at hm
            by_cases he : mid = id
            · rw [if_pos he] at hm
              obtain rfl := Option.some.inj hm
              simpa [activeCountM] using h.memNone mid hx
            · rw [if_neg he, lookupE_nil] at hm
              exact absurd hm (by simp)
        · intro mid hm
          cases hx : lookupE mid s.members with
          | some m₁ => rw [lookupE_append_some hx] at hm; exact absurd hm (by simp)
          | none => exact h.memNone mid hx

theorem inv_deleteMember (s : LibState) (id : Nat) (h : LibInv s) :
    LibInv (deleteMember s id).2 := by
  unfold deleteMember
  cases hx : lookupE id s.members with
  | none => exact h
  | some m =>
    by_cases hb : m.has_borrowed
    · simp only [hb, if_true]; exact h
    · simp only [hb, if_false, Bool.false_eq_true]
      show LibInv { s with members := delEntry id s.members }
      refine ⟨nodup_delEntry id h.membersNodup, h.booksNodup, h.ledgerKeys, h.keyIsTid,
        h.dueDates, ?_, ?_, h.bookFlag, h.bookNone⟩
      · intro mid m' hm
        rw [lookupE_delEntry] at hm
        by_cases he : mid = id
        · rw [if_pos he] at hm; exact absurd hm (by simp)
        · rw [if_neg he] at hm; exact h.memFlag mid m' hm
      · intro mid hm
        rw [lookupE_delEntry] at hm
        by_cases he : mid = id
        · subst he
          have := h.memFlag mid m hx
          rw [if_neg (by simpa using hb)] at this
          exact this
        · rw [if_neg he] at hm; exact h.memNone mid hm

theorem inv_addBook (s : LibState) (id : Nat) (t au i : String) (h : LibInv s) :
    LibInv (addBook s id t au i).2 := by
  unfold addBook
  by_cases hc1 : id = 0 ∨ t = "" ∨ au = "" ∨ i = ""
  · simp only [if_pos hc1]; exact h
  · simp only [if_neg hc1]
    by_cases hc2 : (lookupE id s.books).isSome = true
    · simp only [if_pos hc2]; exact h
    · simp only [if_neg hc2]
      have hnone : lookupE id s.books = none := by
        cases hx : lookupE id s.books with
        | none => rfl
        | some bk => rw [hx] at hc2; simp at hc2
      show LibInv { s with books := s.books ++
        [(id, { book_id := id, title := t, author := au, isbn := i, is_available := true })] }
      refine ⟨h.membersNodup, ?_, h.ledgerKeys, h.keyIsTid, h.dueDates, h.memFlag,
        h.memNone, ?_, ?_⟩
      · rw [List.map_append]
        exact nodup_concat_of_not_mem h.booksNodup
          (by simpa using (lookupE_eq_none_iff id s.books).mp hnone)
      · intro bid bk' hm
        cases hx : lookupE bid s.books with
        | some bk₁ =>
          rw [lookupE_append_some hx] at hm
          obtain rfl := Option.some.inj hm
          exact h.bookFlag bid bk₁ hx
        | none =>
          rw [lookupE_append_none _ hx, lookupE_cons] at hm
          by_cases he : bid = id
          · rw [if_pos he] at hm
            obtain rfl := Option.some.inj hm
            simpa [activeCountB] using h.bookNone bid hx
          · rw [if_neg he, lookupE_nil] at hm
            exact absurd hm (by simp)
      · intro bid hm
        cases hx : lookupE bid s.books with
        | some bk₁ => rw [lookupE_append_some hx] at hm; exact absurd hm (by simp)
        | none => exact h.bookNone bid hx

theorem inv_deleteBook (s : LibState) (id : Nat) (h : LibInv s) :
    LibInv (deleteBook s id).2 := by
  unfold deleteBook
  cases hx : lookupE id s.books with
  | none => exact h
  | some bk =>
    by_cases ha : s.borrowings.any
        (fun p => decide (p.2.book_id = id ∧ p.2.status = BStatus.active)) = true
    · simp only [ha, if_true]; exact h
    · simp only [ha, if_false, Bool.false_eq_true]
      have hcount : activeCountB s id = 0 := by
        rw [activeCountB, List.countP_eq_zero]
        intro p hp
        rw [Bool.not_eq_true] at ha
        have := List.any_eq_false.mp ha p hp
        simpa using this
      show LibInv { s with books := delEntry id s.books }
      refine ⟨h.membersNodup, nodup_delEntry id h.booksNodup, h.ledgerKeys, h.keyIsTid,
        h.dueDates, h.memFlag, h.memNone, ?_, ?_⟩
      · intro bid bk' hm
        rw [lookupE_delEntry] at hm
        by_cases he : bid = id
        · rw [if_pos he] at hm; exact absurd hm (by simp)
        · rw [if_neg he] at hm; exact h.bookFlag bid bk' hm
      · intro bid hm
        rw [lookupE_delEntry] at hm
        by_cases he : bid = id
        · subst he; exact hcount
        · rw [if_neg he] at hm; exact h.bookNone bid hm

theorem length_setEntry {α : Type} (k : Nat) (v : α) (l : List (Nat × α)) :
    (setEntry k v l).length = l.length := List.length_map _ _

theorem activeCountM_eq (s : LibState) (mid : Nat) :
    activeCountM s mid = s.borrowings.countP
      (fun p => decide (p.2.member_id = mid ∧ p.2.status = BStatus.active)) := rfl

theorem activeCountB_eq (s : LibState) (bid : Nat) :
    activeCountB s bid = s.borrowings.countP
      (fun p => decide (p.2.book_id = bid ∧ p.2.status = BStatus.active)) := rfl

theorem ledger_keys_nodup {s : LibState} (h : LibInv s) :
    (s.borrowings.map Prod.fst).Nodup := by
  rw [h.ledgerKeys]
  exact List.nodup_range' 1 s.borrowings.length

theorem countP_single_pred {β : Type} (pred : β → Bool) (x : β) :
    List.countP pred [x] = if pred x = true then 1 else 0 := by
  simp [List.countP_cons]

theorem inv_borrow_success {s s' : LibState} {now mid bid : Nat} {member : Member} {book : Book}
    {bb : Borrowing}
    (hm : lookupE mid s.members = some member) (hb : lookupE bid s.books = some book)
    (hbor : member.has_borrowed = false) (hav : book.is_available = true)
    (hbb : bb = { transaction_id := s.borrowings.length + 1, member_id := mid,
                  member_name := member.name, book_id := bid, book_title := book.title,
                  borrowed_at := now, due_date := now + 14 * msPerDay,
                  status := .active, returned_at := none })
    (hM : s'.members = setEntry mid
      { member with has_borrowed := true, history := member.history ++ [s.borrowings.length + 1] }
      s.members)
    (hB : s'.books = setEntry bid { book with is_available := false } s.books)
    (hL : s'.borrowings = s.borrowings ++ [(s.borrowings.length + 1, bb)])
    (h : LibInv s) : LibInv s' := by
  have hcm : activeCountM s mid = 0 := by
    have := h.memFlag mid member hm
    rw [hbor] at this
    simpa using this
  have hcb : activeCountB s bid = 0 := by
    have := h.bookFlag bid book hb
    rw [hav] at this
    simpa using this
  refine ⟨?_, ?_, ?_, ?_, ?_, ?_, ?_, ?_, ?_⟩
  · rw [hM, map_fst_setEntry]
    exact h.membersNodup
  · rw [hB, map_fst_setEntry]
    exact h.booksNodup
  · rw [hL, List.map_append, h.ledgerKeys, List.length_append]
    have : List.range' 1 (s.borrowings.length + 1) =
        List.range' 1 s.borrowings.length ++ [s.borrowings.length + 1] := by
      rw [List.range'_concat]
      simp [Nat.add_comm]
    simp [this]
  · intro p hp
    rw [hL] at hp
    rcases List.mem_append.mp hp with hold | hnew
    · exact h.keyIsTid p hold
    · rw [List.mem_singleton] at hnew
      subst hnew
      rw [hbb]
  · intro p hp
    rw [hL] at hp
    rcases List.mem_append.mp hp with hold | hnew
    · exact h.dueDates p hold
    · rw [List.mem_singleton] at hnew
      subst hnew
      rw [hbb]
  · intro mid' m'' hm'
    rw [hM, lookupE_setEntry] at hm'
    rw [activeCountM_eq, hL, List.countP_append, countP_single_pred]
    by_cases he : mid' = mid
    · subst he
      rw [if_pos rfl, hm] at hm'
      obtain rfl := Option.some.inj hm'
      rw [activeCountM_eq] at hcm
      rw [hcm]
      subst hbb
      simp
    · rw [if_neg he] at hm'
      have hmf := h.memFlag mid' m'' hm'
      rw [activeCountM_eq] at hmf
      rw [hmf]
      subst hbb
      simp [Ne.symm he]
  · intro mid' hm'
    rw [hM, lookupE_setEntry] at hm'
    rw [activeCountM_eq, hL, List.countP_append, countP_single_pred]
    by_cases he : mid' = mid
    · subst he
      rw [if_pos rfl, hm] at hm'
      exact absurd hm' (by simp)
    · rw [if_neg he] at hm'
      have hmn := h.memNone mid' hm'
      rw [activeCountM_eq] at hmn
      rw [hmn]
      subst hbb
      simp [Ne.symm he]
  · intro bid' bk'' hb'
    rw [hB, lookupE_setEntry] at hb'
    rw [activeCountB_eq, hL, List.countP_append, countP_single_pred]
    by_cases he : bid' = bid
    · subst he
      rw [if_pos rfl, hb] at hb'
      obtain rfl := Option.some.inj hb'
      rw [activeCountB_eq] at hcb
      rw [hcb]
      subst hbb
      simp
    · rw [if_neg he] at hb'
      have hbf := h.bookFlag bid' bk'' hb'
      rw [activeCountB_eq] at hbf
      rw [hbf]
      subst hbb
      simp [Ne.symm he]
  · intro bid' hb'
    rw [hB, lookupE_setEntry] at hb'
    rw [activeCountB_eq, hL, List.countP_append, countP_single_pred]
    by_cases he : bid' = bid
    · subst he
      rw [if_pos rfl, hb] at hb'
      exact absurd hb' (by simp)
    · rw [if_neg he] at hb'
      have hbn := h.bookNone bid' hb'
      rw [activeCountB_eq] at hbn
      rw [hbn]
      subst hbb
      simp [Ne.symm he]

theorem inv_borrow (s : LibState) (now mid bid : Nat) (h : LibInv s) :
    LibInv (borrow s now mid bid).2 := by
  unfold borrow
  cases hm : lookupE mid s.members with
  | none => exact h
  | some member =>
    cases hb : lookupE bid s.books with
    | none => exact h
    | some book =>
      dsimp only
      cases hbor : member.has_borrowed with
      | true => exact h
      | false =>
        cases hav : book.is_available with
        | false => exact h
        | true => exact inv_borrow_success hm hb hbor hav rfl rfl rfl rfl h

theorem inv_return_success {s s' : LibState} {now mid bid tid : Nat}
    {member : Member} {book : Book} {b : Borrowing}
    (hm : lookupE mid s.members = some member)
    (hfind : s.borrowings.find?
      (fun p => decide (p.2.member_id = mid ∧ p.2.book_id = bid ∧
                        p.2.status = BStatus.active)) = some (tid, b))
    (hbk : lookupE bid s.books = some book)
    (hM : s'.members = setEntry mid { member with has_borrowed := false } s.members)
    (hB : s'.books = setEntry bid { book with is_available := true } s.books)
    (hL : s'.borrowings = setEntry tid
      { b with status := BStatus.returned, returned_at := some now } s.borrowings)
    (h : LibInv s) : LibInv s' := by
  obtain ⟨hPm, hPb, hPs⟩ : b.member_id = mid ∧ b.book_id = bid ∧ b.status = BStatus.active := by
    have := List.find?_some hfind
    simpa using this
  have hmemL : (tid, b) ∈ s.borrowings := List.mem_of_find?_eq_some hfind
  have hnd := ledger_keys_nodup h
  have z0 : (if false = true then (1 : Nat) else 0) = 0 := rfl
  have z1 : (if true = true then (1 : Nat) else 0) = 1 := rfl
  refine ⟨?_, ?_, ?_, ?_, ?_, ?_, ?_, ?_, ?_⟩
  · rw [hM, map_fst_setEntry]
    exact h.membersNodup
  · rw [hB, map_fst_setEntry]
    exact h.booksNodup
  · rw [hL, map_fst_setEntry, length_setEntry]
    exact h.ledgerKeys
  · intro p hp
    rw [hL] at hp
    rcases mem_setEntry hp with heq | hold
    · subst heq
      exact h.keyIsTid (tid, b) hmemL
    · exact h.keyIsTid p hold
  · intro p hp
    rw [hL] at hp
    rcases mem_setEntry hp with heq | hold
    · subst heq
      exact h.dueDates (tid, b) hmemL
    · exact h.dueDates p hold
  · intro mid' m'' hm'
    rw [hM, lookupE_setEntry] at hm'
    rw [activeCountM_eq, hL]
    have cps := countP_setEntry
      (fun p => decide (p.2.member_id = mid' ∧ p.2.status = BStatus.active))
      { b with status := BStatus.returned, returned_at := some now } hmemL hnd
    dsimp only at cps
    have e2 : decide (b.member_id = mid' ∧ BStatus.returned = BStatus.active) = false := by simp
    rw [e2, z0] at cps
    by_cases he : mid' = mid
    · subst he
      rw [if_pos rfl, hm] at hm'
      obtain rfl := Option.some.inj hm'
      have e1 : decide (b.member_id = mid' ∧ b.status = BStatus.active) = true := by
        simp [hPm, hPs]
      rw [e1, z1] at cps
      have hmf := h.memFlag mid' member hm
      rw [activeCountM_eq] at hmf
      dsimp only
      rw [z0]
      cases hbor : member.has_borrowed
      · rw [hbor, z0] at hmf
        omega
      · rw [hbor, z1] at hmf
        omega
    · rw [if_neg he] at hm'
      have hmf := h.memFlag mid' m'' hm'
      rw [activeCountM_eq] at hmf
      have e1 : decide (b.member_id = mid' ∧ b.status = BStatus.active) = false := by
        simp [hPm, Ne.symm he]
      rw [e1, z0] at cps
      omega
  · intro mid' hm'
    rw [hM, lookupE_setEntry] at hm'
    rw [activeCountM_eq, hL]
    have cps := countP_setEntry
      (fun p => decide (p.2.member_id = mid' ∧ p.2.status = BStatus.active))
      { b with status := BStatus.returned, returned_at := some now } hmemL hnd
    dsimp only at cps
    have e2 : decide (b.member_id = mid' ∧ BStatus.returned = BStatus.active) = false := by simp
    rw [e2, z0] at cps
    by_cases he : mid' = mid
    · subst he
      rw [if_pos rfl, hm] at hm'
      exact absurd hm' (by simp)
    · rw [if_neg he] at hm'
      have hmn := h.memNone mid' hm'
      rw [activeCountM_eq] at hmn
      have e1 : decide (b.member_id = mid' ∧ b.status = BStatus.active) = false := by
        simp [hPm, Ne.symm he]
      rw [e1, z0] at cps
      omega
  · intro bid' bk'' hb'
    rw [hB, lookupE_setEntry] at hb'
    rw [activeCountB_eq, hL]
    have cps := countP_setEntry
      (fun p => decide (p.2.book_id = bid' ∧ p.2.status = BStatus.active))
      { b with status := BStatus.returned, returned_at := some now } hmemL hnd
    dsimp only at cps
    have e2 : decide (b.book_id = bid' ∧ BStatus.returned = BStatus.active) = false := by simp
    rw [e2, z0] at cps
    by_cases he : bid' = bid
    · subst he
      rw [if_pos rfl, hbk] at hb'
      obtain rfl := Option.some.inj hb'
      have e1 : decide (b.book_id = bid' ∧ b.status = BStatus.active) = true := by
        simp [hPb, hPs]
      rw [e1, z1] at cps
      have hbf := h.bookFlag bid' book hbk
      rw [activeCountB_eq] at hbf
      dsimp only
      rw [show (if true = true then (0 : Nat) else 1) = 0 from rfl]
      cases hav : book.is_available
      · rw [hav, show (if false = true then (0 : Nat) else 1) = 1 from rfl] at hbf
        omega
      · rw [hav, show (if true = true then (0 : Nat) else 1) = 0 from rfl] at hbf
        omega
    · rw [if_neg he] at hb'
      have hbf := h.bookFlag bid' bk'' hb'
      rw [activeCountB_eq] at hbf
      have e1 : decide (b.book_id = bid' ∧ b.status = BStatus.active) = false := by
        simp [hPb, Ne.symm he]
      rw [e1, z0] at cps
      omega
  · intro bid' hb'
    rw [hB, lookupE_setEntry] at hb'
    rw [activeCountB_eq, hL]
    have cps := countP_setEntry
      (fun p => decide (p.2.book_id = bid' ∧ p.2.status = BStatus.active))
      { b with status := BStatus.returned, returned_at := some now } hmemL hnd
    dsimp only at cps
    have e2 : decide (b.book_id = bid' ∧ BStatus.returned = BStatus.active) = false := by simp
    rw [e2, z0] at cps
    by_cases he : bid' = bid
    · subst he
      rw [if_pos rfl, hbk] at hb'
      exact absurd hb' (by simp)
    · rw [if_neg he] at hb'
      have hbn := h.bookNone bid' hb'
      rw [activeCountB_eq] at hbn
      have e1 : decide (b.book_id = bid' ∧ b.status = BStatus.active) = false := by
        simp [hPb, Ne.symm he]
      rw [e1, z0] at cps
      omega

theorem inv_returnBook (s : LibState) (now mid bid : Nat) {r : Except LErr Borrowing}
    {s' : LibState} (h : LibInv s) (hr : returnBook s now mid bid = some (r, s')) :
    LibInv s' := by
  unfold returnBook at hr
  cases hm : lookupE mid s.members with
  | none =>
    rw [hm] at hr
    dsimp only at hr
    simp only [Option.some.injEq, Prod.mk.injEq] at hr
    obtain ⟨-, rfl⟩ := hr
    exact h
  | some member =>
    rw [hm] at hr
    dsimp only at hr
    cases hfind : s.borrowings.find?
        (fun p => decide (p.2.member_id = mid ∧ p.2.book_id = bid ∧
                          p.2.status = BStatus.active)) with
    | none =>
      rw [hfind] at hr
      dsimp only at hr
      simp only [Option.some.injEq, Prod.mk.injEq] at hr
      obtain ⟨-, rfl⟩ := hr
      exact h
    | some p =>
      obtain ⟨tid, b⟩ := p
      rw [hfind] at hr
      dsimp only at hr
      cases hbk : lookupE bid s.books with
      | none =>
        rw [hbk] at hr
        exact absurd hr (by simp)
      | some book =>
        rw [hbk] at hr
        dsimp only at hr
        simp only [Option.some.injEq, Prod.mk.injEq] at hr
        obtain ⟨-, rfl⟩ := hr
        exact inv_return_success hm hfind hbk rfl rfl rfl h

theorem inv_reachable {s : LibState} (h : Reachable s) : LibInv s := by
  induction h with
  | init => exact inv_init
  | step op hs hstep ih =>
    cases op with
    | createMemberOp id n a =>
      simp only [applyOp, Option.some.injEq] at hstep
      exact hstep ▸ inv_createMember _ id n a ih
    | deleteMemberOp id =>
      simp only [applyOp, Option.some.injEq] at hstep
      exact hstep ▸ inv_deleteMember _ id ih
    | addBookOp id t au i =>
      simp only [applyOp, Option.some.injEq] at hstep
      exact hstep ▸ inv_addBook _ id t au i ih
    | deleteBookOp id =>
      simp only [applyOp, Option.some.injEq] at hstep
      exact hstep ▸ inv_deleteBook _ id ih
    | borrowOp now m b =>
      simp only [applyOp, Option.some.injEq] at hstep
      exact hstep ▸ inv_borrow _ now m b ih
    | returnOp now m b =>
      simp only [applyOp, Option.map_eq_some'] at hstep
      obtain ⟨⟨r, s''⟩, hret, hsnd⟩ := hstep
      exact hsnd ▸ inv_returnBook _ now m b ih hret

/-! ## Result characterizations of `borrow` and `returnBook` -/

theorem borrow_member_missing {s : LibState} {now mid bid : Nat}
    (hm : lookupE mid s.members = none) :
    borrow s now mid bid = (.error (.memberNotFound mid), s) := by
  unfold borrow
  rw [hm]

theorem borrow_book_missing {s : LibState} {now mid bid : Nat} {member : Member}
    (hm : lookupE mid s.members = some member) (hb : lookupE bid s.books = none) :
    borrow s now mid bid = (.error (.bookNotFound bid), s) := by
  unfold borrow
  rw [hm]
  dsimp only
  rw [hb]

theorem borrow_already_borrowed {s : LibState} {now mid bid : Nat} {member : Member}
    {book : Book} (hm : lookupE mid s.members = some member)
    (hb : lookupE bid s.books = some book) (hbor : member.has_borrowed = true) :
    borrow s now mid bid = (.error (.alreadyBorrowed mid), s) := by
  unfold borrow
  rw [hm]
  dsimp only
  rw [hb]
  dsimp only
  rw [if_pos hbor]

theorem borrow_book_unavailable {s : LibState} {now mid bid : Nat} {member : Member}
    {book : Book} (hm : lookupE mid s.members = some member)
    (hb : lookupE bid s.books = some book) (hbor : member.has_borrowed = false)
    (hav : book.is_available = false) :
    borrow s now mid bid = (.error (.bookUnavailable bid), s) := by
  unfold borrow
  rw [hm]
  dsimp only
  rw [hb]
  dsimp only
  rw [if_neg (by rw [hbor]; simp), if_pos (by rw [hav]; rfl)]

theorem borrow_ok {s : LibState} {now mid bid : Nat} {member : Member}
    {book : Book} (hm : lookupE mid s.members = some member)
    (hb : lookupE bid s.books = some book) (hbor : member.has_borrowed = false)
    (hav : book.is_available = true) :
    borrow s now mid bid =
      (.ok { transaction_id := s.borrowings.length + 1, member_id := mid,
             member_name := member.name, book_id := bid, book_title := book.title,
             borrowed_at := now, due_date := now + 14 * msPerDay,
             status := .active, returned_at := none },
       { s with
         borrowings := s.borrowings ++
           [(s.borrowings.length + 1,
             { transaction_id := s.borrowings.length + 1, member_id := mid,
               member_name := member.name, book_id := bid, book_title := book.title,
               borrowed_at := now, due_date := now + 14 * msPerDay,
               status := .active, returned_at := none })],
         members := setEntry mid
           { member with has_borrowed := true,
                         history := member.history ++ [s.borrowings.length + 1] }
           s.members,
         books := setEntry bid { book with is_available := false } s.books }) := by
  unfold borrow
  rw [hm]
  dsimp only
  rw [hb]
  dsimp only
  rw [if_neg (by rw [hbor]; simp), if_neg (by rw [hav]; simp)]

theorem returnBook_member_missing {s : LibState} {now mid bid : Nat}
    (hm : lookupE mid s.members = none) :
    returnBook s now mid bid = some (.error (.memberNotFound mid), s) := by
  unfold returnBook
  rw [hm]

theorem returnBook_no_active {s : LibState} {now mid bid : Nat} {member : Member}
    (hm : lookupE mid s.members = some member)
    (hfind : s.borrowings.find?
      (fun p => decide (p.2.member_id = mid ∧ p.2.book_id = bid ∧
                        p.2.status = BStatus.active)) = none) :
    returnBook s now mid bid = some (.error (.noActiveBorrowing mid bid), s) := by
  unfold returnBook
  rw [hm]
  dsimp only
  rw [hfind]

theorem returnBook_ok {s : LibState} {now mid bid tid : Nat} {member : Member}
    {book : Book} {b : Borrowing}
    (hm : lookupE mid s.members = some member)
    (hfind : s.borrowings.find?
      (fun p => decide (p.2.member_id = mid ∧ p.2.book_id = bid ∧
                        p.2.status = BStatus.active)) = some (tid, b))
    (hbk : lookupE bid s.books = some book) :
    returnBook s now mid bid =
      some (.ok { b with status := BStatus.returned, returned_at := some now },
        { s with
          borrowings := setEntry tid
            { b with status := BStatus.returned, returned_at := some now } s.borrowings,
          members := setEntry mid { member with has_borrowed := false } s.members,
          books := setEntry bid { book with is_available := true } s.books }) := by
  unfold returnBook
  rw [hm]
  dsimp only
  rw [hfind]
  dsimp only
  rw [hbk]

theorem returnBook_crash {s : LibState} {now mid bid tid : Nat} {member : Member}
    {b : Borrowing}
    (hm : lookupE mid s.members = some member)
    (hfind : s.borrowings.find?
      (fun p => decide (p.2.member_id = mid ∧ p.2.book_id = bid ∧
                        p.2.status = BStatus.active)) = some (tid, b))
    (hbk : lookupE bid s.books = none) :
    returnBook s now mid bid = none := by
  unfold returnBook
  rw [hm]
  dsimp only
  rw [hfind]
  dsimp only
  rw [hbk]

theorem borrow_ok_elim {s : LibState} {now mid bid : Nat} {b : Borrowing} {s' : LibState}
    (h : borrow s now mid bid = (.ok b, s')) :
    ∃ member book, lookupE mid s.members = some member ∧ lookupE bid s.books = some book ∧
      member.has_borrowed = false ∧ book.is_available = true ∧
      b = { transaction_id := s.borrowings.length + 1, member_id := mid,
            member_name := member.name, book_id := bid, book_title := book.title,
            borrowed_at := now, due_date := now + 14 * msPerDay,
            status := .active, returned_at := none } ∧
      s' = { s with
        borrowings := s.borrowings ++ [(s.borrowings.length + 1, b)],
        members := setEntry mid
          { member with has_borrowed := true,
                        history := member.history ++ [s.borrowings.length + 1] }
          s.members,
        books := setEntry bid { book with is_available := false } s.books } := by
  cases hm : lookupE mid s.members with
  | none => rw [borrow_member_missing hm] at h; exact absurd h (by simp)
  | some member =>
    cases hbk : lookupE bid s.books with
    | none => rw [borrow_book_missing hm hbk] at h; exact absurd h (by simp)
    | some book =>
      cases hbor : member.has_borrowed with
      | true => rw [borrow_already_borrowed hm hbk hbor] at h; exact absurd h (by simp)
      | false =>
        cases hav : book.is_available with
        | false => rw [borrow_book_unavailable hm hbk hbor hav] at h; exact absurd h (by simp)
        | true =>
          rw [borrow_ok hm hbk hbor hav] at h
          simp only [Prod.mk.injEq, Except.ok.injEq] at h
          obtain ⟨rfl, rfl⟩ := h
          exact ⟨member, book, rfl, rfl, hbor, hav, rfl, rfl⟩

/-! ## Concrete states used by the witnesses -/

/-- After creating member 1. -/
def wS1 : LibState := (createMember initState 1 "alice" 30).2

/-- After also adding book 101. -/
def wS2 : LibState := (addBook wS1 101 "dune" "frank" "i1").2

/-- After member 1 borrows book 101 at time 1000. -/
def wS3 : LibState := (borrow wS2 1000 1 101).2

/-- The record created by that borrow. -/
def bWit : Borrowing :=
  { transaction_id := 1, member_id := 1, member_name := "alice", book_id := 101,
    book_title := "dune", borrowed_at := 1000, due_date := 1000 + 14 * msPerDay,
    status := .active, returned_at := none }

/-- The record after returning it at time 2000. -/
def bRetW : Borrowing := { bWit with status := .returned, returned_at := some 2000 }

/-- After member 1 returns book 101 at time 2000. -/
def wS4 : LibState :=
  match returnBook wS3 2000 1 101 with
  | some (_, st) => st
  | none => initState

theorem reachable_wS1 : Reachable wS1 :=
  Reachable.step (Op.createMemberOp 1 "alice" 30) Reachable.init rfl

theorem reachable_wS2 : Reachable wS2 :=
  Reachable.step (Op.addBookOp 101 "dune" "frank" "i1") reachable_wS1 rfl

theorem reachable_wS3 : Reachable wS3 :=
  Reachable.step (Op.borrowOp 1000 1 101) reachable_wS2 rfl

theorem reachable_wS4 : Reachable wS4 :=
  Reachable.step (Op.returnOp 2000 1 101) reachable_wS3 rfl

theorem borrow_wS2_eval : borrow wS2 1000 1 101 = (.ok bWit, wS3) := rfl

theorem returnBook_wS3_eval : returnBook wS3 2000 1 101 = some (.ok bRetW, wS4) := rfl

/-! ## The claims -/

/-- C1: in every state reachable by any sequence of engine operations
(borrow, return, member/book create and delete), a member's `has_borrowed`
flag is true iff the ledger holds exactly one active Borrowing with that
`member_id`, and a book's `is_available` flag is false iff the ledger holds
exactly one active Borrowing with that `book_id`. -/
theorem flags_match_ledger (s : LibState) (h : Reachable s) :
    (∀ mid m, lookupE mid s.members = some m →
      (m.has_borrowed = true ↔ activeCountM s mid = 1)) ∧
    (∀ bid bk, lookupE bid s.books = some bk →
      (bk.is_available = false ↔ activeCountB s bid = 1)) := by
  have hi := inv_reachable h
  constructor
  · intro mid m hm
    have hf := hi.memFlag mid m hm
    cases hb : m.has_borrowed
    · rw [hb, show (if false = true then (1 : Nat) else 0) = 0 from rfl] at hf
      rw [hf]
      simp
    · rw [hb, show (if true = true then (1 : Nat) else 0) = 1 from rfl] at hf
      rw [hf]
      simp
  · intro bid bk hbk
    have hf := hi.bookFlag bid bk hbk
    cases ha : bk.is_available
    · rw [ha, show (if false = true then (0 : Nat) else 1) = 1 from rfl] at hf
      rw [hf]
      simp
    · rw [ha, show (if true = true then (0 : Nat) else 1) = 0 from rfl] at hf
      rw [hf]
      simp

theorem flags_match_ledger_witness :
    activeCountM wS3 1 = 1 ∧ activeCountB wS3 101 = 1 :=
  ⟨((flags_match_ledger wS3 reachable_wS3).1 1
      { member_id := 1, name := "alice", age := 30, has_borrowed := true, history := [1] }
      rfl).mp rfl,
   ((flags_match_ledger wS3 reachable_wS3).2 101
      { book_id := 101, title := "dune", author := "frank", isbn := "i1",
        is_available := false }
      rfl).mp rfl⟩

/-- C2: the four Borrow preconditions are checked in order — unknown member,
then unknown book, then member already borrowing, then book unavailable —
with the first failure winning, and Borrow succeeds exactly when all four
pass. -/
theorem borrow_precondition_order (s : LibState) (now mid bid : Nat) :
    (lookupE mid s.members = none →
      borrow s now mid bid = (.error (.memberNotFound mid), s)) ∧
    (∀ member, lookupE mid s.members = some member → lookupE bid s.books = none →
      borrow s now mid bid = (.error (.bookNotFound bid), s)) ∧
    (∀ member book, lookupE mid s.members = some member →
      lookupE bid s.books = some book → member.has_borrowed = true →
      borrow s now mid bid = (.error (.alreadyBorrowed mid), s)) ∧
    (∀ member book, lookupE mid s.members = some member →
      lookupE bid s.books = some book → member.has_borrowed = false →
      book.is_available = false →
      borrow s now mid bid = (.error (.bookUnavailable bid), s)) ∧
    (∀ member book, lookupE mid s.members = some member →
      lookupE bid s.books = some book → member.has_borrowed = false →
      book.is_available = true → ∃ b, (borrow s now mid bid).1 = .ok b) :=
  ⟨fun hm => borrow_member_missing hm,
   fun _ hm hb => borrow_book_missing hm hb,
   fun _ _ hm hb hbor => borrow_already_borrowed hm hb hbor,
   fun _ _ hm hb hbor hav => borrow_book_unavailable hm hb hbor hav,
   fun _ _ hm hb hbor hav => ⟨_, by rw [borrow_ok hm hb hbor hav]⟩⟩

theorem borrow_precondition_order_witness :
    borrow initState 0 1 101 = (.error (.memberNotFound 1), initState) ∧
    (∃ b, (borrow wS2 1000 1 101).1 = .ok b) :=
  ⟨(borrow_precondition_order initState 0 1 101).1 rfl,
   (borrow_precondition_order wS2 1000 1 101).2.2.2.2
     { member_id := 1, name := "alice", age := 30, has_borrowed := false, history := [] }
     { book_id := 101, title := "dune", author := "frank", isbn := "i1", is_available := true }
     rfl rfl rfl rfl⟩

/-- C3: a successful Borrow assigns `transaction_id = ledger size + 1`,
records `borrowed_at = now`, sets `due_date`, snapshots the member's current
name and the book's current title, sets status `active`, inserts the record
into the ledger, appends the record's id (the reference) to the member's
history, flips the member's and book's flags, returns the full record, and
changes nothing else (members/books equal the old stores except for the two
`setEntry` updates; the ledger is the old ledger plus the one record). -/
theorem borrow_success_effects (s : LibState) (now mid bid : Nat) (b : Borrowing)
    (s' : LibState) (h : borrow s now mid bid = (.ok b, s')) :
    ∃ member book,
      lookupE mid s.members = some member ∧ lookupE bid s.books = some book ∧
      b.transaction_id = s.borrowings.length + 1 ∧
      b.member_id = mid ∧ b.book_id = bid ∧
      b.member_name = member.name ∧ b.book_title = book.title ∧
      b.borrowed_at = now ∧ b.due_date = now + 14 * msPerDay ∧
      b.status = .active ∧ b.returned_at = none ∧
      s'.borrowings = s.borrowings ++ [(b.transaction_id, b)] ∧
      s'.members = setEntry mid
        { member with has_borrowed := true, history := member.history ++ [b.transaction_id] }
        s.members ∧
      s'.books = setEntry bid { book with is_available := false } s.books := by
  obtain ⟨member, book, hm, hbk, hbor, hav, rfl, rfl⟩ := borrow_ok_elim h
  exact ⟨member, book, hm, hbk, rfl, rfl, rfl, rfl, rfl, rfl, rfl, rfl, rfl, rfl, rfl, rfl⟩

theorem borrow_success_effects_witness :
    ∃ member book,
      lookupE 1 wS2.members = some member ∧ lookupE 101 wS2.books = some book ∧
      bWit.transaction_id = wS2.borrowings.length + 1 ∧
      bWit.member_id = 1 ∧ bWit.book_id = 101 ∧
      bWit.member_name = member.name ∧ bWit.book_title = book.title ∧
      bWit.borrowed_at = 1000 ∧ bWit.due_date = 1000 + 14 * msPerDay ∧
      bWit.status = .active ∧ bWit.returned_at = none ∧
      wS3.borrowings = wS2.borrowings ++ [(bWit.transaction_id, bWit)] ∧
      wS3.members = setEntry 1
        { member with has_borrowed := true, history := member.history ++ [bWit.transaction_id] }
        wS2.members ∧
      wS3.books = setEntry 101 { book with is_available := false } wS2.books :=
  borrow_success_effects wS2 1000 1 101 bWit wS3 rfl

/-- C7: a Borrow or Return call that fails with a typed error (NotFound,
Conflict, or Invalid) leaves the members store, the books store and the
ledger all unchanged: every precondition is checked before the first
write. -/
theorem failure_leaves_state_unchanged (s : LibState) (now mid bid : Nat) :
    (∀ e, (borrow s now mid bid).1 = .error e → (borrow s now mid bid).2 = s) ∧
    (∀ e r, returnBook s now mid bid = some r → r.1 = .error e → r.2 = s) := by
  constructor
  · intro e he
    cases hm : lookupE mid s.members with
    | none => rw [borrow_member_missing hm]
    | some member =>
      cases hbk : lookupE bid s.books with
      | none => rw [borrow_book_missing hm hbk]
      | some book =>
        cases hbor : member.has_borrowed with
        | true => rw [borrow_already_borrowed hm hbk hbor]
        | false =>
          cases hav : book.is_available with
          | false => rw [borrow_book_unavailable hm hbk hbor hav]
          | true =>
            rw [borrow_ok hm hbk hbor hav] at he
            exact absurd he (by simp)
  · intro e r hr he
    cases hm : lookupE mid s.members with
    | none =>
      rw [returnBook_member_missing hm] at hr
      obtain rfl := Option.some.inj hr
      rfl
    | some member =>
      cases hfind : s.borrowings.find?
          (fun p => decide (p.2.member_id = mid ∧ p.2.book_id = bid ∧
                            p.2.status = BStatus.active)) with
      | none =>
        rw [returnBook_no_active hm hfind] at hr
        obtain rfl := Option.some.inj hr
        rfl
      | some p =>
        obtain ⟨tid, b⟩ := p
        cases hbk : lookupE bid s.books with
        | none =>
          rw [returnBook_crash hm hfind hbk] at hr
          exact absurd hr (by simp)
        | some book =>
          rw [returnBook_ok hm hfind hbk] at hr
          obtain rfl := Option.some.inj hr
          exact absurd he (by simp)

theorem failure_leaves_state_unchanged_witness :
    (borrow initState 0 1 101).2 = initState ∧
    ((Except.error (LErr.noActiveBorrowing 1 101) : Except LErr Borrowing), wS1).2 = wS1 :=
  ⟨(failure_leaves_state_unchanged initState 0 1 101).1 (.memberNotFound 1) rfl,
   (failure_leaves_state_unchanged wS1 0 1 101).2 (.noActiveBorrowing 1 101)
     ((Except.error (LErr.noActiveBorrowing 1 101) : Except LErr Borrowing), wS1) rfl rfl⟩

/-- C5: every Borrowing ever created satisfies
`due_date = borrowed_at + 14 days` (14 × 24 hours in milliseconds): the value
is fixed at creation (conjunct 2) and holds of every ledger record in every
reachable state, i.e. it is never recomputed afterwards (conjunct 1; Return
copies `due_date` unchanged). -/
theorem due_date_fourteen_days (s : LibState) (h : Reachable s) :
    (∀ p ∈ s.borrowings, p.2.due_date = p.2.borrowed_at + 14 * msPerDay) ∧
    (∀ now mid bid b s', borrow s now mid bid = (.ok b, s') →
      b.borrowed_at = now ∧ b.due_date = b.borrowed_at + 14 * msPerDay) := by
  have hi := inv_reachable h
  refine ⟨hi.dueDates, ?_⟩
  intro now mid bid b s' hb
  obtain ⟨member, book, -, -, -, -, rfl, rfl⟩ := borrow_ok_elim hb
  exact ⟨rfl, rfl⟩

theorem due_date_fourteen_days_witness :
    bWit.due_date = bWit.borrowed_at + 14 * msPerDay :=
  ((due_date_fourteen_days wS2 reachable_wS2).2 1000 1 101 bWit wS3 rfl).2

/-- C6: `overdue` emits exactly the ledger entries with status `active` and
`due_date` strictly earlier than `now` (so an entry whose `due_date` equals
`now` is not emitted), in ledger order, each with
`days_overdue = floor((now − due_date) / 1 day)`; an entry less than one full
day past due shows `days_overdue = 0`, and one whose clock is 15 days past
its `borrowed_at` (so one day past its 14-day `due_date`) shows
`days_overdue = 1`. -/
theorem overdue_spec (s : LibState) (now : Nat) :
    overdue s now = s.borrowings.filterMap
      (fun p => if p.2.status = BStatus.active ∧ p.2.due_date < now
                then some (mkOverdueView now p.2) else none) ∧
    (∀ b : Borrowing, (mkOverdueView now b).days_overdue = (now - b.due_date) / msPerDay) ∧
    (∀ b : Borrowing, b.due_date < now → now - b.due_date < msPerDay →
      (mkOverdueView now b).days_overdue = 0) ∧
    (∀ b : Borrowing, b.due_date = b.borrowed_at + 14 * msPerDay →
      now = b.borrowed_at + 15 * msPerDay → (mkOverdueView now b).days_overdue = 1) := by
  refine ⟨?_, fun b => rfl, ?_, ?_⟩
  · unfold overdue
    have hgen : ∀ l : List (Nat × Borrowing),
        (l.filter (fun p => decide (p.2.status = BStatus.active ∧ p.2.due_date < now))).map
            (fun p => mkOverdueView now p.2) =
          l.filterMap (fun p => if p.2.status = BStatus.active ∧ p.2.due_date < now
            then some (mkOverdueView now p.2) else none) := by
      intro l
      induction l with
      | nil => rfl
      | cons a t ih =>
        by_cases hc : a.2.status = BStatus.active ∧ a.2.due_date < now
        · rw [List.filter_cons_of_pos (by simpa using hc), List.map_cons, ih,
              List.filterMap_cons, if_pos hc]
        · rw [List.filter_cons_of_neg (by simpa using hc), ih,
              List.filterMap_cons, if_neg hc]
    exact hgen s.borrowings
  · intro b h1 h2
    show (now - b.due_date) / msPerDay = 0
    exact Nat.div_eq_of_lt h2
  · intro b h1 h2
    show (now - b.due_date) / msPerDay = 1
    rw [h1, h2]
    have he : b.borrowed_at + 15 * msPerDay - (b.borrowed_at + 14 * msPerDay) = msPerDay := by
      omega
    rw [he]
    exact Nat.div_self (by norm_num [msPerDay])

theorem overdue_spec_witness :
    bWit.due_date = bWit.borrowed_at + 14 * msPerDay ∧
    (mkOverdueView (1000 + 15 * msPerDay) bWit).days_overdue = 1 :=
  ⟨rfl, (overdue_spec initState (1000 + 15 * msPerDay)).2.2.2 bWit rfl rfl⟩

/-- C8: in every reachable state the transaction ids in the ledger are
pairwise strictly increasing in assignment (insertion) order — hence unique —
and the id a new successful Borrow assigns (ledger size + 1) is larger than
every id already present, so it never duplicates one: no borrowing is ever
deleted in this program, so the size-plus-one scheme stays collision-free. -/
theorem transaction_ids_monotone (s : LibState) (h : Reachable s) :
    List.Pairwise (· < ·) (s.borrowings.map (fun p => p.2.transaction_id)) ∧
    (∀ now mid bid b s', borrow s now mid bid = (.ok b, s') →
      b.transaction_id ∉ s.borrowings.map (fun p => p.2.transaction_id) ∧
      ∀ k ∈ s.borrowings.map (fun p => p.2.transaction_id), k < b.transaction_id) := by
  have hi := inv_reachable h
  have hmapeq : s.borrowings.map (fun p => p.2.transaction_id) = s.borrowings.map Prod.fst :=
    List.map_congr_left fun p hp => hi.keyIsTid p hp
  constructor
  · rw [hmapeq, hi.ledgerKeys]
    exact List.pairwise_lt_range' 1 s.borrowings.length
  · intro now mid bid b s' hb
    obtain ⟨member, book, -, -, -, -, rfl, -⟩ := borrow_ok_elim hb
    rw [hmapeq, hi.ledgerKeys]
    constructor
    · intro hmem
      rw [List.mem_range'_1] at hmem
      dsimp only at hmem
      omega
    · intro k hk
      rw [List.mem_range'_1] at hk
      show k < s.borrowings.length + 1
      omega

theorem transaction_ids_monotone_witness :
    List.Pairwise (· < ·) (wS3.borrowings.map (fun p => p.2.transaction_id)) :=
  (transaction_ids_monotone wS3 reachable_wS3).1

/-- C4: Return fails `NotFound(member)` for an unknown member; otherwise, if
no ledger record matches (`member_id`, `book_id`, status `active`), it fails
`Invalid(no-active-borrowing)`; otherwise it marks the (first) matching
record returned with `returned_at = now`, clears the member's flag, makes
the referenced book available again (the book exists in every reachable
state), and returns the updated record. -/
theorem return_spec (s : LibState) (h : Reachable s) (now mid bid : Nat) :
    (lookupE mid s.members = none →
      returnBook s now mid bid = some (.error (.memberNotFound mid), s)) ∧
    (∀ member, lookupE mid s.members = some member →
      (∀ p ∈ s.borrowings,
        ¬(p.2.member_id = mid ∧ p.2.book_id = bid ∧ p.2.status = BStatus.active)) →
      returnBook s now mid bid = some (.error (.noActiveBorrowing mid bid), s)) ∧
    (∀ member tid b, lookupE mid s.members = some member →
      s.borrowings.find? (fun p => decide (p.2.member_id = mid ∧ p.2.book_id = bid ∧
        p.2.status = BStatus.active)) = some (tid, b) →
      ∃ book, lookupE bid s.books = some book ∧
        returnBook s now mid bid =
          some (.ok { b with status := BStatus.returned, returned_at := some now },
            { s with
              borrowings := setEntry tid
                { b with status := BStatus.returned, returned_at := some now } s.borrowings,
              members := setEntry mid { member with has_borrowed := false } s.members,
              books := setEntry bid { book with is_available := true } s.books })) := by
  have hi := inv_reachable h
  refine ⟨fun hm => returnBook_member_missing hm, ?_, ?_⟩
  · intro member hm hno
    refine returnBook_no_active hm (List.find?_eq_none.mpr ?_)
    intro x hx
    simpa using hno x hx
  · intro member tid b hm hfind
    have hps : b.member_id = mid ∧ b.book_id = bid ∧ b.status = BStatus.active := by
      simpa using List.find?_some hfind
    have hpos : 0 < activeCountB s bid := by
      rw [activeCountB_eq]
      exact List.countP_pos_iff.mpr
        ⟨(tid, b), List.mem_of_find?_eq_some hfind, by simp [hps.2.1, hps.2.2]⟩
    cases hbk : lookupE bid s.books with
    | none =>
      have := hi.bookNone bid hbk
      omega
    | some book => exact ⟨book, rfl, returnBook_ok hm hfind hbk⟩

theorem return_spec_witness :
    ∃ book, lookupE 101 wS3.books = some book ∧
      returnBook wS3 2000 1 101 =
        some (.ok { bWit with status := BStatus.returned, returned_at := some 2000 },
          { wS3 with
            borrowings := setEntry 1
              { bWit with status := BStatus.returned, returned_at := some 2000 }
              wS3.borrowings,
            members := setEntry 1
              { member_id := 1, name := "alice", age := 30, has_borrowed := false,
                history := [1] }
              wS3.members,
            books := setEntry 101 { book with is_available := true } wS3.books }) :=
  (return_spec wS3 reachable_wS3 2000 1 101).2.2
    { member_id := 1, name := "alice", age := 30, has_borrowed := true, history := [1] }
    1 bWit rfl rfl

/-- C10: in every reachable state, an active ledger record's `book_id`
always resolves in the catalog (book deletion is refused while an active
borrowing references the book, and borrowing requires the book to exist), so
the success path of Return never dereferences a missing book: `returnBook`
never reaches the JS `TypeError` (`none`) on any input. -/
theorem return_never_crashes (s : LibState) (h : Reachable s) :
    (∀ p ∈ s.borrowings, p.2.status = BStatus.active →
      (lookupE p.2.book_id s.books).isSome = true) ∧
    (∀ now mid bid, returnBook s now mid bid ≠ none) := by
  have hi := inv_reachable h
  have hbook : ∀ p ∈ s.borrowings, p.2.status = BStatus.active →
      (lookupE p.2.book_id s.books).isSome = true := by
    intro p hp hact
    cases hbk : lookupE p.2.book_id s.books with
    | some bk => rfl
    | none =>
      exfalso
      have h0 := hi.bookNone p.2.book_id hbk
      rw [activeCountB_eq] at h0
      have hpos : 0 < List.countP
          (fun q => decide (q.2.book_id = p.2.book_id ∧ q.2.status = BStatus.active))
          s.borrowings := List.countP_pos_iff.mpr ⟨p, hp, by simp [hact]⟩
      omega
  refine ⟨hbook, ?_⟩
  intro now mid bid hcrash
  cases hm : lookupE mid s.members with
  | none =>
    rw [returnBook_member_missing hm] at hcrash
    exact absurd hcrash (by simp)
  | some member =>
    cases hfind : s.borrowings.find?
        (fun p => decide (p.2.member_id = mid ∧ p.2.book_id = bid ∧
                          p.2.status = BStatus.active)) with
    | none =>
      rw [returnBook_no_active hm hfind] at hcrash
      exact absurd hcrash (by simp)
    | some q =>
      obtain ⟨tid, b⟩ := q
      have hps : b.member_id = mid ∧ b.book_id = bid ∧ b.status = BStatus.active := by
        simpa using List.find?_some hfind
      have hsome := hbook (tid, b) (List.mem_of_find?_eq_some hfind) hps.2.2
      dsimp only at hsome
      rw [hps.2.1] at hsome
      cases hbk : lookupE bid s.books with
      | none =>
        rw [hbk] at hsome
        exact absurd hsome (by simp)
      | some book =>
        rw [returnBook_ok hm hfind hbk] at hcrash
        exact absurd hcrash (by simp)

theorem return_never_crashes_witness : returnBook wS3 2000 1 101 ≠ none :=
  (return_never_crashes wS3 reachable_wS3).2 2000 1 101

/-- C9: the entry pushed onto a member's history at Borrow time is (a
reference to) the ledger record itself, not an independent snapshot: after a
successful Borrow of (member, book) followed by a successful Return of the
same pair, the member's history view shows that entry with status
`returned` and a non-null `returned_at`, although it was appended while the
borrowing was still `active`. -/
theorem history_entry_is_ledger_record (s : LibState) (h : Reachable s)
    (t1 t2 mid bid : Nat) (b : Borrowing) (s1 : LibState)
    (hb : borrow s t1 mid bid = (.ok b, s1))
    (b2 : Borrowing) (s2 : LibState)
    (hr : returnBook s1 t2 mid bid = some (.ok b2, s2)) :
    ∃ hl, historyOf s2 mid = some hl ∧
      ∃ v ∈ hl, v.transaction_id = b.transaction_id ∧
        v.status = BStatus.returned ∧ v.returned_at = some t2 := by
  have hi := inv_reachable h
  obtain ⟨member, book, hm, hbk, hbor, hav, rfl, rfl⟩ := borrow_ok_elim hb
  have hcm : activeCountM s mid = 0 := by
    have := hi.memFlag mid member hm
    rw [hbor] at this
    simpa using this
  have hpre : s.borrowings.find?
      (fun p => decide (p.2.member_id = mid ∧ p.2.book_id = bid ∧
                        p.2.status = BStatus.active)) = none := by
    refine List.find?_eq_none.mpr ?_
    intro x hx hmatch
    simp only [decide_eq_true_eq] at hmatch
    have hpos : 0 < activeCountM s mid := by
      rw [activeCountM_eq]
      exact List.countP_pos_iff.mpr ⟨x, hx, by simp [hmatch.1, hmatch.2.2]⟩
    omega
  have hfind1 : (s.borrowings ++
      [(s.borrowings.length + 1,
        ({ transaction_id := s.borrowings.length + 1, member_id := mid,
           member_name := member.name, book_id := bid, book_title := book.title,
           borrowed_at := t1, due_date := t1 + 14 * msPerDay,
           status := .active, returned_at := none } : Borrowing))]).find?
      (fun p => decide (p.2.member_id = mid ∧ p.2.book_id = bid ∧
                        p.2.status = BStatus.active)) =
      some (s.borrowings.length + 1,
        { transaction_id := s.borrowings.length + 1, member_id := mid,
          member_name := member.name, book_id := bid, book_title := book.title,
          borrowed_at := t1, due_date := t1 + 14 * msPerDay,
          status := .active, returned_at := none }) := by
    rw [find?_append_none _ hpre]
    exact List.find?_cons_of_pos _ (by simp)
  have hm1 : lookupE mid (setEntry mid
      { member with has_borrowed := true,
                    history := member.history ++ [s.borrowings.length + 1] } s.members) =
      some { member with has_borrowed := true,
                         history := member.history ++ [s.borrowings.length + 1] } := by
    rw [lookupE_setEntry, if_pos rfl, hm]
    rfl
  have hbk1 : lookupE bid (setEntry bid { book with is_available := false } s.books) =
      some { book with is_available := false } := by
    rw [lookupE_setEntry, if_pos rfl, hbk]
    rfl
  rw [returnBook_ok hm1 hfind1 hbk1] at hr
  simp only [Option.some.injEq, Prod.mk.injEq, Except.ok.injEq] at hr
  obtain ⟨rfl, rfl⟩ := hr
  have hnone : lookupE (s.borrowings.length + 1) s.borrowings = none := by
    rw [lookupE_eq_none_iff, hi.ledgerKeys, List.mem_range'_1]
    omega
  have hlook2 : lookupE (s.borrowings.length + 1)
      (setEntry (s.borrowings.length + 1)
        ({ transaction_id := s.borrowings.length + 1, member_id := mid,
           member_name := member.name, book_id := bid, book_title := book.title,
           borrowed_at := t1, due_date := t1 + 14 * msPerDay,
           status := BStatus.returned, returned_at := some t2 } : Borrowing)
        (s.borrowings ++
          [(s.borrowings.length + 1,
            ({ transaction_id := s.borrowings.length + 1, member_id := mid,
               member_name := member.name, book_id := bid, book_title := book.title,
               borrowed_at := t1, due_date := t1 + 14 * msPerDay,
               status := .active, returned_at := none } : Borrowing))])) =
      some { transaction_id := s.borrowings.length + 1, member_id := mid,
             member_name := member.name, book_id := bid, book_title := book.title,
             borrowed_at := t1, due_date := t1 + 14 * msPerDay,
             status := BStatus.returned, returned_at := some t2 } := by
    rw [lookupE_setEntry, if_pos rfl, lookupE_append_none _ hnone, lookupE_cons, if_pos rfl]
    rfl
  have hm2 : lookupE mid (setEntry mid
      { member with has_borrowed := false,
                    history := member.history ++ [s.borrowings.length + 1] }
      (setEntry mid
        { member with has_borrowed := true,
                      history := member.history ++ [s.borrowings.length + 1] } s.members)) =
      some { member with has_borrowed := false,
                         history := member.history ++ [s.borrowings.length + 1] } := by
    rw [lookupE_setEntry, if_pos rfl, hm1]
    rfl
  refine ⟨(member.history ++ [s.borrowings.length + 1]).filterMap
      (fun t => (lookupE t (setEntry (s.borrowings.length + 1)
        ({ transaction_id := s.borrowings.length + 1, member_id := mid,
           member_name := member.name, book_id := bid, book_title := book.title,
           borrowed_at := t1, due_date := t1 + 14 * msPerDay,
           status := BStatus.returned, returned_at := some t2 } : Borrowing)
        (s.borrowings ++
          [(s.borrowings.length + 1,
            ({ transaction_id := s.borrowings.length + 1, member_id := mid,
               member_name := member.name, book_id := bid, book_title := book.title,
               borrowed_at := t1, due_date := t1 + 14 * msPerDay,
               status := .active, returned_at := none } : Borrowing))]))).map mkHistView),
    ?_, ?_⟩
  · unfold historyOf
    dsimp only
    rw [hm2]
    rfl
  · refine ⟨mkHistView
      { transaction_id := s.borrowings.length + 1, member_id := mid,
        member_name := member.name, book_id := bid, book_title := book.title,
        borrowed_at := t1, due_date := t1 + 14 * msPerDay,
        status := BStatus.returned, returned_at := some t2 }, ?_, rfl, rfl, rfl⟩
    refine List.mem_filterMap.mpr ⟨s.borrowings.length + 1, ?_, ?_⟩
    · exact List.mem_append_right _ (List.mem_singleton_self _)
    · dsimp only
      rw [hlook2]
      rfl

theorem history_entry_is_ledger_record_witness :
    ∃ hl, historyOf wS4 1 = some hl ∧
      ∃ v ∈ hl, v.transaction_id = bWit.transaction_id ∧
        v.status = BStatus.returned ∧ v.returned_at = some 2000 :=
  history_entry_is_ledger_record wS2 reachable_wS2 1000 2000 1 101 bWit wS3 rfl
    bRetW wS4 rfl
